import Mathlib

/-!
Verification development for the `cozyos-boot` launcher (`src/main.rs`).

The Rust program is embedded shallowly:

* Strings are Lean `String`; Rust `str::replace` is modelled by the
  fuel-based `rustReplace` over `List Char` (the fuel `length + 1` is
  enough since the pattern used, `"$(devroot)"`, is non-empty).
* All ambient process state (the `DEVROOT` environment variable,
  `fs::canonicalize`, `Path::exists`, the config file contents, the
  `HashMap` iteration order and the child-process result) is collected
  in a `World` record, and the effectful functions take it explicitly.
* `HashMap<String, String>` is modelled as the association list of its
  entries in declaration order, together with `World.hashOrder`, the
  iteration order actually produced by the map (an arbitrary
  permutation of the entries: Rust's `HashMap` does not preserve
  insertion order).
* TOML deserialization of `CozyBootConfig` (`#[derive(Deserialize)]` +
  `toml::from_str`) is modelled by `parseConfig` over an abstract
  document `TomlDoc` recording which tables and fields are present;
  fields of type `Option<bool>` are optional, all others required, as
  serde derives from the struct declarations in `src/main.rs`.
* `main` (lines 104-199) is `mainRun`, returning a `MainOutcome` that
  records the terminal branch taken, the message printed on the error
  paths that the spec names, and the argument list when the guest was
  launched; `exitCodeOf` is the resulting process exit code.
  `ensure_config_dir` is a one-time filesystem side effect with no
  bearing on any claim; the `World` is taken post that call.  Read
  errors of the config file (which also exit 1) are folded into the
  `readDoc = none` case.
-/

/-- Does `pat` match at the head of `s`? (List-level prefix test.) -/
def leadMatch : List Char → List Char → Bool
  | [], _ => true
  | _ :: _, [] => false
  | p :: ps, c :: cs => (p == c) && leadMatch ps cs

/-- Does `pat` occur as a contiguous sublist of `s`? -/
def hasOccur (pat : List Char) : List Char → Bool
  | [] => pat.isEmpty
  | c :: rest => leadMatch pat (c :: rest) || hasOccur pat rest

/-- Leftmost, non-overlapping replacement of `pat` by `rep`, fuel-bounded.
With fuel at least `s.length` this is total on non-empty patterns. -/
def replaceAux (pat rep : List Char) : Nat → List Char → List Char
  | 0, s => s
  | Nat.succ fuel, s =>
    if leadMatch pat s && !pat.isEmpty then
      rep ++ replaceAux pat rep fuel (s.drop pat.length)
    else
      match s with
      | [] => []
      | c :: rest => c :: replaceAux pat rep fuel rest

/-- Model of Rust `str::replace` (for the non-empty patterns this program
uses): replace every leftmost non-overlapping occurrence of `pat` in `s`
by `rep`. -/
def rustReplace (s pat rep : String) : String :=
  ⟨replaceAux pat.data rep.data (s.data.length + 1) s.data⟩

/-- Model of Rust `bool::to_string`. -/
def rustBool (b : Bool) : String := if b then "true" else "false"

/-- CLI arguments (struct `Args` in `src/main.rs`). -/
structure Args where
  config : Option String
  verbose : Bool
  debug : Bool
  boot_string : Option String
deriving DecidableEq

/-- Table `[main]` (struct `MainConfig`). -/
structure MainConfig where
  kern_root : String
  user_root : String
deriving DecidableEq

/-- Table `[bin]` (struct `BinSettings`): all three fields optional. -/
structure BinSettings where
  allow_32bit : Option Bool
  allow_universal : Option Bool
  allow_64bit : Option Bool
deriving DecidableEq

/-- Parsed configuration (struct `CozyBootConfig`).  `bootargs` is the
entry list of the `HashMap` in declaration order. -/
structure CozyBootConfig where
  main : MainConfig
  bootargs : List (String × String)
  bin : BinSettings
deriving DecidableEq

/-- Abstract `[main]` table of a TOML document: which fields are present. -/
structure TomlMain where
  kern_root : Option String
  user_root : Option String
deriving DecidableEq

/-- Abstract `[bin]` table of a TOML document. -/
structure TomlBin where
  allow_32bit : Option Bool
  allow_universal : Option Bool
  allow_64bit : Option Bool
deriving DecidableEq

/-- Abstract TOML document: which top-level tables are present. -/
structure TomlDoc where
  main : Option TomlMain
  bootargs : Option (List (String × String))
  bin : Option TomlBin
deriving DecidableEq

/-- Model of `toml::from_str::<CozyBootConfig>` restricted to this schema,
as serde derives it from the struct declarations: the three tables and
the two `[main]` strings are required, the `[bin]` booleans optional. -/
def parseConfig (d : TomlDoc) : Option CozyBootConfig :=
  match d.main, d.bootargs, d.bin with
  | some m, some ba, some b =>
    match m.kern_root, m.user_root with
    | some k, some u =>
      some ⟨⟨k, u⟩, ba, ⟨b.allow_32bit, b.allow_universal, b.allow_64bit⟩⟩
    | _, _ => none
  | _, _, _ => none

/-- Model of `expand_variables` (lines 87-100): substitute `$(devroot)` with
`DEVROOT` (default `"."`), then best-effort canonicalize. -/
def expand_variables (envDevroot : Option String) (canon : String → Option String)
    (path : String) : String :=
  let result := path
  let devroot := envDevroot.getD "."
  let result := rustReplace result "$(devroot)" devroot
  match canon result with
  | some absolutePath => absolutePath
  | none => result

/-- The Variable Expander as the spec words it (section 4.3): first
substitute every `$(devroot)` by the environment value or `"."`, then
attempt canonicalization, returning the substituted-but-unresolved
string when it fails. -/
def expandSpec (envDevroot : Option String) (canon : String → Option String)
    (raw : String) : String :=
  let substituted :=
    rustReplace raw "$(devroot)" (match envDevroot with | some v => v | none => ".")
  match canon substituted with
  | some resolved => resolved
  | none => substituted

/-- Model of `PathBuf::push`: append a relative component, inserting a
separator unless the base already ends in one. -/
def pathJoin (base rel : String) : String :=
  if base.data.getLast? = some '/' then base ++ rel else base ++ "/" ++ rel

/-- Model of `get_config_path` (lines 60-67): override verbatim, else
`<home>/.config/cozyboot/cozyboot.toml`. -/
def get_config_path (home : String) (config_arg : Option String) : String :=
  match config_arg with
  | some path => path
  | none => pathJoin home ".config/cozyboot/cozyboot.toml"

/-- Ambient process state threaded through the embedding. -/
structure World where
  home : String
  devroot : Option String
  canon : String → Option String
  pathExists : String → Bool
  readDoc : String → Option TomlDoc
  hashOrder : List (String × String) → List (String × String)
  spawn : List String → Option (Option Int)

/-- Replace the child-process behaviour of a world. -/
def setSpawn (w : World) (sp : List String → Option (Option Int)) : World :=
  ⟨w.home, w.devroot, w.canon, w.pathExists, w.readDoc, w.hashOrder, sp⟩

/-- One `Command::arg` call: push a token at the end. -/
def argPush (l : List String) (s : String) : List String := l ++ [s]

/-- Argument construction of `main` (lines 146-180), one `.arg` at a time. -/
def buildArgs (w : World) (config : CozyBootConfig) (args : Args) : List String :=
  let command : List String := []
  let command := argPush (argPush command "--kern-root")
    (expand_variables w.devroot w.canon config.main.kern_root)
  let command := argPush (argPush command "--user-root")
    (expand_variables w.devroot w.canon config.main.user_root)
  let command := List.foldl (fun c kv => argPush c ("--" ++ kv.1 ++ "=" ++ kv.2))
    command (w.hashOrder config.bootargs)
  let command := match config.bin.allow_32bit with
    | some allow => argPush (argPush command "--allow-32bit") (rustBool allow)
    | none => command
  let command := match config.bin.allow_universal with
    | some allow => argPush (argPush command "--allow-universal") (rustBool allow)
    | none => command
  let command := match config.bin.allow_64bit with
    | some allow => argPush (argPush command "--allow-64bit") (rustBool allow)
    | none => command
  let command := match args.boot_string with
    | some bs => argPush (argPush command "--boot-string") bs
    | none => command
  let command := if args.debug then argPush command "--debug" else command
  command

/-- Terminal branch taken by `main`, with the data the spec talks about. -/
inductive MainOutcome where
  | configNotFound (msg : String)
  | parseFailed
  | kernRootMissing (msg : String)
  | spawnErr
  | guestFailed (argv : List String) (code : Int)
  | success (argv : List String)
deriving DecidableEq

/-- Launch step (lines 187-198): spawn, wait, relay the exit status. -/
def runGuest (w : World) (argv : List String) : MainOutcome :=
  match w.spawn argv with
  | none => MainOutcome.spawnErr
  | some st =>
    if st = some 0 then MainOutcome.success argv
    else MainOutcome.guestFailed argv (st.getD 1)

/-- Model of `main` (lines 104-199) after the `ensure_config_dir` side effect. -/
def mainRun (w : World) (a : Args) : MainOutcome :=
  let config_path := get_config_path w.home a.config
  if ! w.pathExists config_path then
    MainOutcome.configNotFound ("Error: Configuration file not found at " ++ config_path)
  else
    match w.readDoc config_path with
    | none => MainOutcome.parseFailed
    | some doc =>
      match parseConfig doc with
      | none => MainOutcome.parseFailed
      | some config =>
        let expanded_kern_root := expand_variables w.devroot w.canon config.main.kern_root
        if ! w.pathExists expanded_kern_root then
          MainOutcome.kernRootMissing
            ("Error: OS path \x27" ++ expanded_kern_root ++
              "\x27 does not exist (expanded from \x27" ++ config.main.kern_root ++ "\x27)")
        else
          runGuest w (buildArgs w config a)

/-- Process exit code of each terminal branch (errors exit 1; a guest
failure exits with `status.code().unwrap_or(1)`; success exits 0). -/
def exitCodeOf : MainOutcome → Int
  | MainOutcome.configNotFound _ => 1
  | MainOutcome.parseFailed => 1
  | MainOutcome.kernRootMissing _ => 1
  | MainOutcome.spawnErr => 1
  | MainOutcome.guestFailed _ c => c
  | MainOutcome.success _ => 0

/-- Tokens contributed by the bootargs loop, in iteration order. -/
def bootargsSeg (l : List (String × String)) : List String :=
  l.map (fun kv => "--" ++ kv.1 ++ "=" ++ kv.2)

/-- Tokens contributed by one optional `[bin]` boolean. -/
def binFlag (name : String) : Option Bool → List String
  | some v => [name, rustBool v]
  | none => []

/-- Tokens contributed by the `[bin]` table, in the fixed order
32bit, universal, 64bit. -/
def binSeg (b : BinSettings) : List String :=
  binFlag "--allow-32bit" b.allow_32bit ++ binFlag "--allow-universal" b.allow_universal ++
    binFlag "--allow-64bit" b.allow_64bit

/-- Tokens contributed by `--boot-string`. -/
def bootStringSeg : Option String → List String
  | some bs => ["--boot-string", bs]
  | none => []

/-- Tokens contributed by `--debug`. -/
def debugSeg (d : Bool) : List String := if d then ["--debug"] else []

/-- Index of the first occurrence of `s` in `l` (length of `l` if absent). -/
def firstPos (l : List String) (s : String) : Nat :=
  match l with
  | [] => 0
  | hd :: tl => if hd == s then 0 else firstPos tl s + 1

/-- A string in which the pattern does not occur is left unchanged by
`replaceAux`, whatever the fuel. -/
theorem replaceAux_no_occur (pat rep : List Char) (fuel : Nat) :
    ∀ s : List Char, hasOccur pat s = false → replaceAux pat rep fuel s = s := by
  induction fuel with
  | zero => intro s _; rfl
  | succ n ih =>
    intro s h
    cases s with
    | nil =>
      cases pat with
      | nil => simp [hasOccur, List.isEmpty] at h
      | cons p ps => simp [replaceAux, leadMatch]
    | cons c rest =>
      rw [hasOccur, Bool.or_eq_false_iff] at h
      rw [replaceAux, h.1]
      simp [ih rest h.2]

/-- The bootargs loop appends exactly one `--key=value` token per entry,
in iteration order. -/
theorem foldl_bootargs (l : List (String × String)) (init : List String) :
    List.foldl (fun c kv => argPush c ("--" ++ kv.1 ++ "=" ++ kv.2)) init l =
      init ++ bootargsSeg l := by
  induction l generalizing init with
  | nil => simp [bootargsSeg]
  | cons hd tl ih =>
    rw [List.foldl_cons, ih]
    simp [bootargsSeg, argPush, List.append_assoc]

/-- The argument list built by `main` decomposes into the fixed segments:
roots, bootargs, bin flags, boot string, debug flag. -/
theorem buildArgs_eq_segments (w : World) (cfg : CozyBootConfig) (a : Args) :
    buildArgs w cfg a =
      ["--kern-root", expand_variables w.devroot w.canon cfg.main.kern_root,
        "--user-root", expand_variables w.devroot w.canon cfg.main.user_root]
      ++ bootargsSeg (w.hashOrder cfg.bootargs) ++ binSeg cfg.bin
      ++ bootStringSeg a.boot_string ++ debugSeg a.debug := by
  cases h32 : cfg.bin.allow_32bit <;> cases hu : cfg.bin.allow_universal <;>
    cases h64 : cfg.bin.allow_64bit <;> cases hbs : a.boot_string <;>
    cases hdbg : a.debug <;>
    simp only [buildArgs, h32, hu, h64, hbs, hdbg, foldl_bootargs] <;>
    simp [argPush, binSeg, binFlag, bootStringSeg, debugSeg, List.append_assoc,
      h32, hu, h64, hbs, hdbg]

/-- When the config file exists, reads, parses, and the expanded kernel
root exists, `main` reaches the launch step with the built arguments. -/
theorem mainRun_launch (w : World) (a : Args) (d : TomlDoc) (cfg : CozyBootConfig)
    (hfile : w.pathExists (get_config_path w.home a.config) = true)
    (hdoc : w.readDoc (get_config_path w.home a.config) = some d)
    (hparse : parseConfig d = some cfg)
    (hkern : w.pathExists (expand_variables w.devroot w.canon cfg.main.kern_root) = true) :
    mainRun w a = runGuest w (buildArgs w cfg a) := by
  simp [mainRun, hfile, hdoc, hparse, hkern]

/-- When the expanded kernel root does not exist, `main` stops in the
validation branch with the exact error message. -/
theorem mainRun_kern_missing (w : World) (a : Args) (d : TomlDoc) (cfg : CozyBootConfig)
    (hfile : w.pathExists (get_config_path w.home a.config) = true)
    (hdoc : w.readDoc (get_config_path w.home a.config) = some d)
    (hparse : parseConfig d = some cfg)
    (hkern : w.pathExists (expand_variables w.devroot w.canon cfg.main.kern_root) = false) :
    mainRun w a = MainOutcome.kernRootMissing
      ("Error: OS path \x27" ++ expand_variables w.devroot w.canon cfg.main.kern_root ++
        "\x27 does not exist (expanded from \x27" ++ cfg.main.kern_root ++ "\x27)") := by
  simp [mainRun, hfile, hdoc, hparse, hkern]

/-- Sample well-formed TOML document. -/
def exDoc : TomlDoc :=
  ⟨some ⟨some "/k", some "/u"⟩, some [("a", "1"), ("b", "2")], some ⟨some true, none, none⟩⟩

/-- The configuration `exDoc` parses to. -/
def exCfg : CozyBootConfig := ⟨⟨"/k", "/u"⟩, [("a", "1"), ("b", "2")], ⟨some true, none, none⟩⟩

/-- Sample CLI arguments: all defaults. -/
def exArgs : Args := ⟨none, false, false, none⟩

/-- Sample world in which the whole pipeline succeeds: every path exists,
canonicalization fails (best-effort fallback), the map iterates in
declaration order, and the guest terminates as `sp` says. -/
def exWorld (sp : Option (Option Int)) : World :=
  ⟨"/home/u", none, fun _ => none, fun _ => true, fun _ => some exDoc, id, fun _ => sp⟩

example : parseConfig exDoc = some exCfg := rfl
example : mainRun (exWorld (some (some 0))) exArgs =
    MainOutcome.success ["--kern-root", "/k", "--user-root", "/u", "--a=1", "--b=2",
      "--allow-32bit", "true"] := by decide

/-- String concatenation is associative (via the underlying char lists). -/
theorem strAppend_assoc (a b c : String) : a ++ b ++ c = a ++ (b ++ c) := by
  obtain ⟨la⟩ := a
  obtain ⟨lb⟩ := b
  obtain ⟨lc⟩ := c
  show String.mk (la ++ lb ++ lc) = String.mk (la ++ (lb ++ lc))
  rw [List.append_assoc]

/-- C3: for every input string, `expand_variables` first replaces every
occurrence of the literal token `$(devroot)` with the `DEVROOT` value, or
with `"."` when it is unset, then attempts filesystem canonicalization;
when canonicalization fails it returns the substituted-but-unresolved
string unchanged rather than failing — exactly the expander the spec
describes (`expandSpec`). -/
theorem expand_variables_matches_spec (envDevroot : Option String)
    (canon : String → Option String) (s : String) :
    expand_variables envDevroot canon s = expandSpec envDevroot canon s := by
  cases envDevroot <;> rfl

/-- C4: expansion is idempotent on a string containing no `$(devroot)`
token that denotes a non-existent path (canonicalization fails on it). -/
theorem expand_variables_idempotent (envDevroot : Option String)
    (canon : String → Option String) (s : String)
    (hno : hasOccur "$(devroot)".data s.data = false)
    (hcanon : canon s = none) :
    expand_variables envDevroot canon (expand_variables envDevroot canon s) =
      expand_variables envDevroot canon s := by
  have hrep : rustReplace s "$(devroot)" (envDevroot.getD ".") = s := by
    unfold rustReplace
    rw [replaceAux_no_occur _ _ _ _ hno]
  have h1 : expand_variables envDevroot canon s = s := by
    simp only [expand_variables]
    rw [hrep, hcanon]
  rw [h1]
  exact h1

/-- Witness for C4: the token-free, non-existent path `/nope` with
`DEVROOT` unset and a canonicalization that always fails. -/
theorem expand_variables_idempotent_witness :
    hasOccur "$(devroot)".data "/nope".data = false ∧
      expand_variables none (fun _ => none) (expand_variables none (fun _ => none) "/nope") =
        expand_variables none (fun _ => none) "/nope" :=
  ⟨by decide, expand_variables_idempotent none (fun _ => none) "/nope" (by decide) rfl⟩

/-- C8: `get_config_path` returns the override verbatim whenever one is
given (no existence check and no expansion: it consults neither the
filesystem nor the environment, which it does not even receive), and
otherwise returns `<home>/.config/cozyboot/cozyboot.toml`. -/
theorem config_path_resolution (home path : String)
    (h : home.data.getLast? ≠ some '/') :
    get_config_path home (some path) = path ∧
      get_config_path home none = home ++ "/.config/cozyboot/cozyboot.toml" := by
  refine ⟨rfl, ?_⟩
  unfold get_config_path pathJoin
  rw [if_neg h, strAppend_assoc]
  rfl

/-- Witness for C8 at a concrete home directory and override. -/
theorem config_path_resolution_witness :
    "/root".data.getLast? ≠ some '/' ∧
      get_config_path "/root" (some "/tmp/x.toml") = "/tmp/x.toml" ∧
      get_config_path "/root" none = "/root" ++ "/.config/cozyboot/cozyboot.toml" :=
  ⟨by decide, (config_path_resolution "/root" "/tmp/x.toml" (by decide)).1,
    (config_path_resolution "/root" "/tmp/x.toml" (by decide)).2⟩

/-- C10: the `verbose` flag changes neither the guest argument list nor
the outcome of the run (hence not the exit code): two invocations
differing only in `verbose` are indistinguishable to the guest. -/
theorem verbose_noninterference (w : World) (cfg : CozyBootConfig)
    (c : Option String) (v1 v2 d : Bool) (bs : Option String) :
    buildArgs w cfg ⟨c, v1, d, bs⟩ = buildArgs w cfg ⟨c, v2, d, bs⟩ ∧
      mainRun w ⟨c, v1, d, bs⟩ = mainRun w ⟨c, v2, d, bs⟩ ∧
      exitCodeOf (mainRun w ⟨c, v1, d, bs⟩) = exitCodeOf (mainRun w ⟨c, v2, d, bs⟩) :=
  ⟨rfl, rfl, rfl⟩

/-- C2: the built argument list is exactly the fixed segments in order:
`--kern-root` and its expanded value, `--user-root` and its expanded
value, one `--key=value` token per bootargs entry, the present bin flags
in the fixed order 32bit/universal/64bit (`--allow-<name>` followed by
`"true"`/`"false"`, absent fields emitting nothing), then `--boot-string
<value>` if given, then `--debug` if set; and since the map iteration is
a permutation of the declared entries, the bootargs segment carries
exactly one token per declared entry. -/
theorem argument_list_fixed_order (w : World) (cfg : CozyBootConfig) (a : Args)
    (h : (w.hashOrder cfg.bootargs).Perm cfg.bootargs) :
    buildArgs w cfg a =
      ["--kern-root", expand_variables w.devroot w.canon cfg.main.kern_root,
        "--user-root", expand_variables w.devroot w.canon cfg.main.user_root]
      ++ bootargsSeg (w.hashOrder cfg.bootargs) ++ binSeg cfg.bin
      ++ bootStringSeg a.boot_string ++ debugSeg a.debug ∧
      (bootargsSeg (w.hashOrder cfg.bootargs)).Perm (bootargsSeg cfg.bootargs) :=
  ⟨buildArgs_eq_segments w cfg a, h.map _⟩

/-- Witness for C2 in a world whose map iterates in declaration order. -/
theorem argument_list_fixed_order_witness :
    ((exWorld (some (some 0))).hashOrder exCfg.bootargs).Perm exCfg.bootargs ∧
      (buildArgs (exWorld (some (some 0))) exCfg exArgs =
        ["--kern-root",
          expand_variables (exWorld (some (some 0))).devroot (exWorld (some (some 0))).canon
            exCfg.main.kern_root,
          "--user-root",
          expand_variables (exWorld (some (some 0))).devroot (exWorld (some (some 0))).canon
            exCfg.main.user_root]
        ++ bootargsSeg ((exWorld (some (some 0))).hashOrder exCfg.bootargs) ++ binSeg exCfg.bin
        ++ bootStringSeg exArgs.boot_string ++ debugSeg exArgs.debug ∧
        (bootargsSeg ((exWorld (some (some 0))).hashOrder exCfg.bootargs)).Perm
          (bootargsSeg exCfg.bootargs)) :=
  ⟨by decide, argument_list_fixed_order _ _ _ (by decide)⟩

/-- World identical to `exWorld (some (some 0))` except that the map
iterates the two declared bootargs in the opposite order — a legitimate
iteration order, since Rust's `HashMap` guarantees none. -/
def revWorld : World :=
  ⟨"/home/u", none, fun _ => none, fun _ => true, fun _ => some exDoc,
    fun l => l.reverse, fun _ => some (some 0)⟩

/-- C1 counterexample: with `bootargs` declared as `a = "1"` then
`b = "2"` but the map iterating in the reverse order (a permutation of
the declared entries), the built argument list contains `--b=2` strictly
before `--a=1` — declaration order is not preserved by the `HashMap`
loop. -/
theorem bootargs_order_counterexample :
    (revWorld.hashOrder exCfg.bootargs).Perm exCfg.bootargs ∧
      "--a=1" ∈ buildArgs revWorld exCfg exArgs ∧
      "--b=2" ∈ buildArgs revWorld exCfg exArgs ∧
      firstPos (buildArgs revWorld exCfg exArgs) "--b=2" <
        firstPos (buildArgs revWorld exCfg exArgs) "--a=1" := by
  decide

/-- C1 amended: the bootargs contribution to the built list is the
contiguous segment between the root flags and the bin flags, holding the
`--key=value` tokens of the map's single per-run iteration; that segment
carries exactly the declared pairs' tokens with the same multiplicities
(exactly one token per declared pair), but in the map's iteration order,
which need not be the declaration order. -/
theorem bootargs_tokens_exact (w : World) (cfg : CozyBootConfig) (a : Args)
    (h : (w.hashOrder cfg.bootargs).Perm cfg.bootargs) :
    buildArgs w cfg a =
      ["--kern-root", expand_variables w.devroot w.canon cfg.main.kern_root,
        "--user-root", expand_variables w.devroot w.canon cfg.main.user_root]
      ++ bootargsSeg (w.hashOrder cfg.bootargs) ++ binSeg cfg.bin
      ++ bootStringSeg a.boot_string ++ debugSeg a.debug ∧
      (∀ t : String, (bootargsSeg (w.hashOrder cfg.bootargs)).count t =
        (bootargsSeg cfg.bootargs).count t) ∧
      ∀ k v : String, (k, v) ∈ cfg.bootargs →
        ("--" ++ k ++ "=" ++ v) ∈ buildArgs w cfg a := by
  refine ⟨buildArgs_eq_segments w cfg a, fun t => (h.map _).count_eq t, ?_⟩
  intro k v hmem
  rw [buildArgs_eq_segments]
  have hm : (k, v) ∈ w.hashOrder cfg.bootargs := h.mem_iff.mpr hmem
  have ht : ("--" ++ k ++ "=" ++ v) ∈ bootargsSeg (w.hashOrder cfg.bootargs) :=
    List.mem_map.mpr ⟨(k, v), hm, rfl⟩
  simp [List.mem_append, ht]

/-- Witness for the amended C1: declaration-order iteration, the exact
token count of `--a=1`, and its membership in the built list. -/
theorem bootargs_tokens_exact_witness :
    ((exWorld (some (some 0))).hashOrder exCfg.bootargs).Perm exCfg.bootargs ∧
      (bootargsSeg ((exWorld (some (some 0))).hashOrder exCfg.bootargs)).count "--a=1" =
        (bootargsSeg exCfg.bootargs).count "--a=1" ∧
      ("--" ++ "a" ++ "=" ++ "1") ∈ buildArgs (exWorld (some (some 0))) exCfg exArgs :=
  ⟨by decide,
    (bootargs_tokens_exact (exWorld (some (some 0))) exCfg exArgs (by decide)).2.1 "--a=1",
    (bootargs_tokens_exact (exWorld (some (some 0))) exCfg exArgs (by decide)).2.2 "a" "1"
      (by decide)⟩

/-- World for C7 with `DEVROOT` unset. -/
def envWorldA : World :=
  ⟨"/h", none, fun _ => none, fun _ => false, fun _ => none, id, fun _ => none⟩

/-- World for C7 identical to `envWorldA` except `DEVROOT` is `/d`. -/
def envWorldB : World :=
  ⟨"/h", some "/d", fun _ => none, fun _ => false, fun _ => none, id, fun _ => none⟩

/-- Configuration whose kernel root mentions the `$(devroot)` token. -/
def c7Cfg : CozyBootConfig := ⟨⟨"$(devroot)/k", "/u"⟩, [], ⟨none, none, none⟩⟩

/-- C7 counterexample: building the argument list reads the environment —
with identical configuration and runtime options, two worlds that agree
on canonicalization and iteration order but differ in `DEVROOT` produce
different argument lists, refuting "no dependence on the environment or
filesystem". -/
theorem builder_env_dependence_counterexample :
    envWorldA.canon = envWorldB.canon ∧ envWorldA.hashOrder = envWorldB.hashOrder ∧
      envWorldA.devroot ≠ envWorldB.devroot ∧
      buildArgs envWorldA c7Cfg exArgs ≠ buildArgs envWorldB c7Cfg exArgs :=
  ⟨rfl, rfl, by decide, by decide⟩

/-- C7 amended: the builder is deterministic given the configuration, the
runtime options and the ambient state it actually reads — the `DEVROOT`
value, the canonicalization function and the map iteration order; it
reads nothing else of the world (spawn behaviour, path existence, config
file contents, home directory), so two builds with identical such inputs
yield identical argument lists. -/
theorem builder_determinism (w1 w2 : World) (cfg : CozyBootConfig) (a : Args)
    (hdev : w1.devroot = w2.devroot) (hcanon : w1.canon = w2.canon)
    (horder : w1.hashOrder = w2.hashOrder) :
    buildArgs w1 cfg a = buildArgs w2 cfg a := by
  rw [buildArgs_eq_segments, buildArgs_eq_segments, hdev, hcanon, horder]

/-- Witness for the amended C7: two worlds differing only in the spawn
behaviour build identical argument lists. -/
theorem builder_determinism_witness :
    (exWorld (some (some 0))).devroot = (setSpawn (exWorld (some (some 0))) (fun _ => none)).devroot ∧
      (exWorld (some (some 0))).canon = (setSpawn (exWorld (some (some 0))) (fun _ => none)).canon ∧
      (exWorld (some (some 0))).hashOrder =
        (setSpawn (exWorld (some (some 0))) (fun _ => none)).hashOrder ∧
      buildArgs (exWorld (some (some 0))) exCfg exArgs =
        buildArgs (setSpawn (exWorld (some (some 0))) (fun _ => none)) exCfg exArgs :=
  ⟨rfl, rfl, rfl, builder_determinism _ _ _ _ rfl rfl rfl⟩

/-- C5: after expansion, a non-existent kernel root is fatal — `main`
stops with exit code 1 and exactly the message
`Error: OS path '<expanded>' does not exist (expanded from '<original>')`
before building arguments or launching (the outcome is the same for any
child-process behaviour); when the kernel root exists, `main` proceeds
to launch with the built arguments, whose `--user-root` value is
produced by the same `expand_variables`, with no existence requirement
on the expanded user root anywhere in the hypotheses. -/
theorem kern_root_validation (w : World) (a : Args) (d : TomlDoc) (cfg : CozyBootConfig)
    (hfile : w.pathExists (get_config_path w.home a.config) = true)
    (hdoc : w.readDoc (get_config_path w.home a.config) = some d)
    (hparse : parseConfig d = some cfg) :
    (w.pathExists (expand_variables w.devroot w.canon cfg.main.kern_root) = false →
      mainRun w a = MainOutcome.kernRootMissing
        ("Error: OS path \x27" ++ expand_variables w.devroot w.canon cfg.main.kern_root ++
          "\x27 does not exist (expanded from \x27" ++ cfg.main.kern_root ++ "\x27)") ∧
        exitCodeOf (mainRun w a) = 1 ∧
        ∀ sp, mainRun (setSpawn w sp) a = mainRun w a) ∧
    (w.pathExists (expand_variables w.devroot w.canon cfg.main.kern_root) = true →
      mainRun w a = runGuest w (buildArgs w cfg a) ∧
      ∃ rest, buildArgs w cfg a =
        "--kern-root" :: expand_variables w.devroot w.canon cfg.main.kern_root ::
          "--user-root" :: expand_variables w.devroot w.canon cfg.main.user_root :: rest) := by
  constructor
  · intro hkern
    refine ⟨mainRun_kern_missing w a d cfg hfile hdoc hparse hkern, ?_, ?_⟩
    · rw [mainRun_kern_missing w a d cfg hfile hdoc hparse hkern]
      rfl
    · intro sp
      rw [mainRun_kern_missing w a d cfg hfile hdoc hparse hkern]
      exact mainRun_kern_missing (setSpawn w sp) a d cfg hfile hdoc hparse hkern
  · intro hkern
    refine ⟨mainRun_launch w a d cfg hfile hdoc hparse hkern,
      bootargsSeg (w.hashOrder cfg.bootargs) ++ binSeg cfg.bin ++
        bootStringSeg a.boot_string ++ debugSeg a.debug, ?_⟩
    rw [buildArgs_eq_segments]
    simp [List.append_assoc]

/-- World for the C5 witness: every path exists except the expanded
kernel root `/k`. -/
def kernMissingWorld : World :=
  ⟨"/home/u", none, fun _ => none, fun p => !(p == "/k"), fun _ => some exDoc, id,
    fun _ => some (some 0)⟩

/-- Witness for C5: with kernel root `/k` absent, `main` stops with the
exact message and exit code 1. -/
theorem kern_root_validation_witness :
    kernMissingWorld.pathExists
        (expand_variables kernMissingWorld.devroot kernMissingWorld.canon exCfg.main.kern_root)
      = false ∧
      mainRun kernMissingWorld exArgs = MainOutcome.kernRootMissing
        "Error: OS path \x27/k\x27 does not exist (expanded from \x27/k\x27)" ∧
      exitCodeOf (mainRun kernMissingWorld exArgs) = 1 :=
  ⟨by decide,
    ((kern_root_validation kernMissingWorld exArgs exDoc exCfg (by decide) rfl rfl).1
      (by decide)).1.trans (by decide),
    ((kern_root_validation kernMissingWorld exArgs exDoc exCfg (by decide) rfl rfl).1
      (by decide)).2.1⟩

/-- C6: once the guest is spawned, its termination decides the launcher's
exit code — a non-zero exit code `c` is propagated verbatim, a missing
code (signal termination) yields 1, and exit code 0 yields exit 0. -/
theorem exit_code_propagation (w : World) (a : Args) (d : TomlDoc) (cfg : CozyBootConfig)
    (hfile : w.pathExists (get_config_path w.home a.config) = true)
    (hdoc : w.readDoc (get_config_path w.home a.config) = some d)
    (hparse : parseConfig d = some cfg)
    (hkern : w.pathExists (expand_variables w.devroot w.canon cfg.main.kern_root) = true) :
    (∀ c : Int, c ≠ 0 → w.spawn (buildArgs w cfg a) = some (some c) →
        exitCodeOf (mainRun w a) = c) ∧
      (w.spawn (buildArgs w cfg a) = some none → exitCodeOf (mainRun w a) = 1) ∧
      (w.spawn (buildArgs w cfg a) = some (some 0) → exitCodeOf (mainRun w a) = 0) := by
  have hl := mainRun_launch w a d cfg hfile hdoc hparse hkern
  refine ⟨?_, ?_, ?_⟩
  · intro c hc hsp
    rw [hl]
    simp [runGuest, hsp, exitCodeOf, hc]
  · intro hsp
    rw [hl]
    simp [runGuest, hsp, exitCodeOf]
  · intro hsp
    rw [hl]
    simp [runGuest, hsp, exitCodeOf]

/-- Witness for C6: a guest exiting 42 makes the launcher exit 42. -/
theorem exit_code_propagation_witness :
    (exWorld (some (some 42))).spawn (buildArgs (exWorld (some (some 42))) exCfg exArgs) =
        some (some 42) ∧
      (42 : Int) ≠ 0 ∧
      exitCodeOf (mainRun (exWorld (some (some 42))) exArgs) = 42 :=
  ⟨rfl, by decide,
    (exit_code_propagation (exWorld (some (some 42))) exArgs exDoc exCfg (by decide) rfl rfl
      (by decide)).1 42 (by decide) rfl⟩

/-- C9: a syntactically valid document that omits the `[bootargs]` table
or the `[bin]` table fails to deserialize, so `main` stops in the parse
branch with exit code 1; yet the three `[bin]` booleans themselves are
optional — a document with both tables present and an empty `[bin]`
parses. -/
theorem required_tables (w : World) (a : Args) (d : TomlDoc)
    (hfile : w.pathExists (get_config_path w.home a.config) = true)
    (hdoc : w.readDoc (get_config_path w.home a.config) = some d)
    (hmiss : d.bootargs = none ∨ d.bin = none) :
    parseConfig d = none ∧ mainRun w a = MainOutcome.parseFailed ∧
      exitCodeOf (mainRun w a) = 1 ∧
      ∀ k u ba, parseConfig ⟨some ⟨some k, some u⟩, some ba, some ⟨none, none, none⟩⟩ =
        some ⟨⟨k, u⟩, ba, ⟨none, none, none⟩⟩ := by
  have hp : parseConfig d = none := by
    obtain ⟨m, ba, b⟩ := d
    rcases hmiss with h | h
    · rw [show ba = none from h]
      cases m <;> cases b <;> rfl
    · rw [show b = none from h]
      cases m <;> cases ba <;> rfl
  refine ⟨hp, ?_, ?_, ?_⟩
  · simp [mainRun, hfile, hdoc, hp]
  · simp [mainRun, hfile, hdoc, hp, exitCodeOf]
  · intro k u ba
    rfl

/-- World for the C9 witness: the config file is a syntactically valid
document whose `[bootargs]` table is missing. -/
def noBootargsWorld : World :=
  ⟨"/home/u", none, fun _ => none, fun _ => true,
    fun _ => some ⟨some ⟨some "/k", some "/u"⟩, none, some ⟨none, none, none⟩⟩, id,
    fun _ => some (some 0)⟩

/-- Witness for C9: the document missing `[bootargs]` makes `main` stop
in the parse branch with exit code 1. -/
theorem required_tables_witness :
    noBootargsWorld.pathExists (get_config_path noBootargsWorld.home exArgs.config) = true ∧
      noBootargsWorld.readDoc (get_config_path noBootargsWorld.home exArgs.config) =
        some ⟨some ⟨some "/k", some "/u"⟩, none, some ⟨none, none, none⟩⟩ ∧
      mainRun noBootargsWorld exArgs = MainOutcome.parseFailed ∧
      exitCodeOf (mainRun noBootargsWorld exArgs) = 1 :=
  ⟨by decide, rfl,
    (required_tables noBootargsWorld exArgs ⟨some ⟨some "/k", some "/u"⟩, none,
      some ⟨none, none, none⟩⟩ (by decide) rfl (Or.inl rfl)).2.1,
    (required_tables noBootargsWorld exArgs ⟨some ⟨some "/k", some "/u"⟩, none,
      some ⟨none, none, none⟩⟩ (by decide) rfl (Or.inl rfl)).2.2.1⟩
